import Mathlib

/-!
# Verification of the snake-web tick engine

Shallow embedding of the core game logic of `src/game.js`: the data model
(grid constants, cells, game state), the random-placement helpers
(`randomEmptyCell`, `spawnObstacles`), the tick engine (`tick`), the reset
operation (`resetGame`) and the keyboard handler (`keydown`), together with
the session step relation and reachability.

Randomness is modelled explicitly: each call of the JS `Math.random()`-based
index draw becomes a natural-number parameter (`rf` for the food draw, the
stream `ro` for the obstacle draws).  `Math.floor(Math.random() * len)` is an
arbitrary index in `[0, len)`, embedded as `r % len` for an arbitrary
natural `r`.  The retrying loop of `spawnObstacles` is embedded with explicit
fuel; exhausting the fuel yields `none`.  JS `Set`s of string keys
`"x,y"` (the key encoding is injective on integer pairs) are embedded as
lists of cells with deduplicating insertion.
-/

namespace SnakeWeb

/-- Cells are integer pairs; coordinates may go negative transiently
(`newHead` is computed before the wall check). -/
abbrev Cell := Int × Int

/-! ## Constants (src/game.js lines 8-36) -/

def GRID_W : Int := 30
def GRID_H : Int := 20
def APPLE_MARGIN : Int := 1
def BASE_FPS : Nat := 12
def MIN_FPS : Nat := 2
def MAX_FPS : Nat := 24
def START_FPS : Nat := max MIN_FPS (BASE_FPS / 5)

def UP : Cell := (0, -1)
def DOWN : Cell := (0, 1)
def LEFT : Cell := (-1, 0)
def RIGHT : Cell := (1, 0)

/-! ## Game state (src/game.js lines 39-43) -/

structure GameState where
  snake : List Cell
  dir : Cell
  pendingDir : Cell
  food : Option Cell
  score : Nat
  obstacles : List Cell
  fps : Nat
  paused : Bool
  gameOver : Bool
  win : Bool
  onMenu : Bool
  deathReason : String
deriving Repr, DecidableEq

/-! ## Candidate cell enumeration (src/game.js lines 64-78, 80-89)

Both `randomEmptyCell` and `spawnObstacles` enumerate, y-outer x-inner, the
interior-margin cells (`APPLE_MARGIN ≤ x ≤ GRID_W - 1 - APPLE_MARGIN`,
`APPLE_MARGIN ≤ y ≤ GRID_H - 1 - APPLE_MARGIN`) not in the exclude set. -/

/-- One inner `x`-loop row of the candidate enumeration, at row index `j`
(cell row `y = APPLE_MARGIN + j`). -/
def rowCells (j : Nat) : List Cell :=
  (List.range (GRID_W - 2 * APPLE_MARGIN).toNat).map
    (fun i => (APPLE_MARGIN + (i : Int), APPLE_MARGIN + (j : Int)))

/-- All interior-margin cells, in the y-outer x-inner enumeration order of
the JS double loop. -/
def interiorCells : List Cell :=
  (List.range (GRID_H - 2 * APPLE_MARGIN).toNat).flatMap rowCells

/-- The `candidates` / `all` list of `randomEmptyCell` and `spawnObstacles`:
interior-margin cells not in the exclude set, in enumeration order. -/
def candidateCells (excl : List Cell) : List Cell :=
  interiorCells.filter (fun c => decide (c ∉ excl))

/-- src/game.js lines 64-78.  The random draw
`candidates[Math.floor(Math.random() * candidates.length)]` is embedded as
indexing at `r % candidates.length`; returns `none` («null») exactly when no
candidate exists. -/
def randomEmptyCell (excl : List Cell) (r : Nat) : Option Cell :=
  (candidateCells excl)[r % (candidateCells excl).length]?

/-- JS `Set.add` on string-keyed cells: deduplicating insertion. -/
def setInsert (c : Cell) (s : List Cell) : List Cell :=
  if c ∈ s then s else c :: s

/-- The `while (chosen.size < k)` retry loop of `spawnObstacles`
(src/game.js lines 91-95), with explicit fuel; `ro` supplies the successive
random draws (draw `i` picks index `ro i % all.length`). -/
def spawnLoop (all : List Cell) (k : Nat) (ro : Nat → Nat) :
    Nat → Nat → List Cell → Option (List Cell)
  | 0, _, chosen => if k ≤ chosen.length then some chosen else none
  | fuel + 1, i, chosen =>
    if k ≤ chosen.length then some chosen
    else
      match all[(ro i) % all.length]? with
      | some c => spawnLoop all k ro fuel (i + 1) (setInsert c chosen)
      | none => none

/-- src/game.js lines 80-97. -/
def spawnObstacles (n : Nat) (excl : List Cell) (ro : Nat → Nat) (fuel : Nat) :
    Option (List Cell) :=
  spawnLoop (candidateCells excl) (min n (candidateCells excl).length) ro fuel 0 []

/-! ## Tick engine (src/game.js lines 491-520) -/

/-- `newHead`: head plus the direction committed from `pendingDir`
(src/game.js lines 492-494). -/
def nextHead (s : GameState) : Cell :=
  (s.snake.headI.1 + s.pendingDir.1, s.snake.headI.2 + s.pendingDir.2)

/-- The wall-check bound `0 <= nx && nx < GRID_W && 0 <= ny && ny < GRID_H`. -/
def inBounds (c : Cell) : Prop :=
  0 ≤ c.1 ∧ c.1 < GRID_W ∧ 0 ≤ c.2 ∧ c.2 < GRID_H

instance (c : Cell) : Decidable (inBounds c) := by
  unfold inBounds; infer_instance

/-- One invocation of `tick()` (src/game.js lines 491-520).  `rf` is the
food random draw, `ro`/`fuel` drive the obstacle respawn loop; the result is
`none` only if that loop exhausts its fuel. -/
def tick (s : GameState) (rf : Nat) (ro : Nat → Nat) (fuel : Nat) :
    Option GameState :=
  if ¬ inBounds (nextHead s) then
    some { s with dir := s.pendingDir, gameOver := true, deathReason := "Hit wall" }
  else if nextHead s ∈ s.obstacles then
    some { s with dir := s.pendingDir, gameOver := true, deathReason := "Hit obstacle" }
  else if nextHead s ∈ (if s.food = some (nextHead s) then s.snake else s.snake.dropLast) then
    some { s with dir := s.pendingDir, gameOver := true, deathReason := "Hit self" }
  else if s.food = some (nextHead s) then
    match randomEmptyCell (nextHead s :: s.snake ++ s.obstacles) rf with
    | none =>
      some { s with dir := s.pendingDir, snake := nextHead s :: s.snake, food := none,
                    score := s.score + 1, win := true }
    | some f =>
      match spawnObstacles 3 (nextHead s :: s.snake ++ [f]) ro fuel with
      | none => none
      | some obs =>
        some { s with dir := s.pendingDir, snake := nextHead s :: s.snake, food := some f,
                      score := s.score + 1, fps := min MAX_FPS (s.fps + 1), obstacles := obs }
  else
    some { s with dir := s.pendingDir, snake := (nextHead s :: s.snake).dropLast }

/-! ## Reset and input handling (src/game.js lines 50-58, 197-219) -/

/-- src/game.js lines 50-58.  Does not touch `fps` or the mode flags; its
callers do. -/
def resetGame (rf : Nat) (s : GameState) : GameState :=
  { s with
    snake := [(GRID_W / 2, GRID_H / 2), (GRID_W / 2 - 1, GRID_H / 2), (GRID_W / 2 - 2, GRID_H / 2)],
    dir := RIGHT,
    food := randomEmptyCell
      [(GRID_W / 2, GRID_H / 2), (GRID_W / 2 - 1, GRID_H / 2), (GRID_W / 2 - 2, GRID_H / 2)] rf,
    score := 0,
    pendingDir := RIGHT,
    obstacles := [] }

/-- The program state at load (src/game.js lines 39-43, 522-524):
`resetGame()` then `onMenu = true`, all other flags false, `fps = START_FPS`. -/
def initState (rf : Nat) : GameState :=
  resetGame rf
    { snake := [], dir := RIGHT, pendingDir := RIGHT, food := none, score := 0,
      obstacles := [], fps := START_FPS, paused := false, gameOver := false,
      win := false, onMenu := true, deathReason := "" }

/-- The start/restart action shared by the menu-confirm, restart and
click-start handlers (src/game.js lines 202, 207, 488): `resetGame()` plus
`paused = false; gameOver = false; win = false; fps = START_FPS;
onMenu = false`. -/
def startGame (rf : Nat) (s : GameState) : GameState :=
  { resetGame rf s with onMenu := false, paused := false, gameOver := false,
                        win := false, fps := START_FPS }

/-- Keyboard events relevant to game state.  WASD (and the Cyrillic layout
keys) behave identically to the arrows in the handler, so one constructor
per direction suffices. -/
inductive Key
  | arrowUp | arrowDown | arrowLeft | arrowRight
  | space | enter | minus | plus | keyR | keyM | escape | other
deriving Repr, DecidableEq

/-- The keydown handler (src/game.js lines 197-219).  `rf` is the food draw
used if a reset happens (menu confirm, restart, or the reload of Escape,
embedded as a fresh load state). -/
def keydown (k : Key) (rf : Nat) (s : GameState) : GameState :=
  if s.onMenu then
    if k = Key.space ∨ k = Key.enter then startGame rf s else s
  else if k = Key.escape then
    initState rf
  else if s.gameOver = true ∨ s.win = true then
    if k = Key.keyR then startGame rf s else s
  else if k = Key.space then { s with paused := !s.paused }
  else if k = Key.keyM then s
  else if k = Key.minus then { s with fps := max MIN_FPS (s.fps - 1) }
  else if k = Key.plus then { s with fps := min MAX_FPS (s.fps + 1) }
  else if k = Key.arrowUp then
    if s.dir = DOWN then s else { s with pendingDir := UP }
  else if k = Key.arrowDown then
    if s.dir = UP then s else { s with pendingDir := DOWN }
  else if k = Key.arrowLeft then
    if s.dir = RIGHT then s else { s with pendingDir := LEFT }
  else if k = Key.arrowRight then
    if s.dir = LEFT then s else { s with pendingDir := RIGHT }
  else s

/-! ## Session step relation and reachability (src/game.js lines 350-384) -/

/-- One observable session step: either a tick (gated by the loop on
`!onMenu && !paused && !gameOver && !win`, src/game.js line 358) or one
keydown event. -/
inductive Step : GameState → GameState → Prop
  | tickStep (s : GameState) (rf : Nat) (ro : Nat → Nat) (fuel : Nat) (s' : GameState) :
      s.onMenu = false → s.paused = false → s.gameOver = false → s.win = false →
      tick s rf ro fuel = some s' → Step s s'
  | keyStep (s : GameState) (k : Key) (rf : Nat) : Step s (keydown k rf s)

/-- States reachable from some load state by session steps. -/
inductive Reachable : GameState → Prop
  | init (rf : Nat) : Reachable (initState rf)
  | step (s s' : GameState) : Reachable s → Step s s' → Reachable s'

/-! ## Auxiliary notions used in statements -/

/-- The spawn loop diverges on a given draw stream: every fuel bound is
exhausted with no result returned. -/
def spawnObstaclesDiverges (n : Nat) (excl : List Cell) (ro : Nat → Nat) : Prop :=
  ∀ fuel, spawnObstacles n excl ro fuel = none

/-- The exact opposite of a direction vector. -/
def opp (c : Cell) : Cell := (-c.1, -c.2)

/-- The direction vector a direction key requests (src/game.js lines 215-218). -/
def dirVec : Key → Cell
  | Key.arrowUp => UP
  | Key.arrowDown => DOWN
  | Key.arrowLeft => LEFT
  | Key.arrowRight => RIGHT
  | _ => (0, 0)

/-! ## Concrete states used as witnesses and counterexamples -/

/-- A tight-loop state: head `(5,5)`, tail `(6,5)`, food on the tail cell, so
the next move both eats and lands on the current tail. -/
def c1State : GameState :=
  { snake := [(5, 5), (5, 6), (6, 6), (6, 5)], dir := RIGHT, pendingDir := RIGHT,
    food := some (6, 5), score := 0, obstacles := [], fps := 2, paused := false,
    gameOver := false, win := false, onMenu := false, deathReason := "" }

/-- An ordinary mid-game non-eating state. -/
def c2SmallState : GameState :=
  { snake := [(5, 5), (4, 5), (3, 5)], dir := RIGHT, pendingDir := RIGHT,
    food := some (10, 10), score := 2, obstacles := [], fps := 5, paused := false,
    gameOver := false, win := false, onMenu := false, deathReason := "" }

/-- The state after one (non-eating) tick from `c2SmallState`. -/
def c2SmallAfter : GameState :=
  { c2SmallState with snake := [(6, 5), (5, 5), (4, 5)] }

/-- Row `j` of the serpentine path: the row enumeration, reversed on odd
rows so consecutive rows join end to end. -/
def serpRow (j : Nat) : List Cell :=
  if j % 2 = 0 then rowCells j else (rowCells j).reverse

/-- A serpentine path visiting every interior-margin cell exactly once,
starting at `(1,1)`. -/
def fullSerp : List Cell :=
  (List.range (GRID_H - 2 * APPLE_MARGIN).toNat).flatMap serpRow

/-- The serpentine path minus its first cell `(1,1)`: a contiguous,
duplicate-free snake (head `(2,1)`, second cell `(3,1)`, so it is moving
LEFT) covering every interior-margin cell except `(1,1)`. -/
def serpSnake : List Cell := fullSerp.drop 1

/-- A Playing state about to eat the last free interior-margin cell: the
snake covers all interior cells but `(1,1)`, the food sits at `(1,1)` and the
head is adjacent to it. -/
def c2State : GameState :=
  { snake := serpSnake, dir := LEFT, pendingDir := LEFT, food := some (1, 1), score := 500,
    obstacles := [], fps := 24, paused := false, gameOver := false, win := false,
    onMenu := false, deathReason := "" }

/-- The state after the eating tick from `c2State`: the snake has absorbed
`(1,1)` and now covers the whole interior margin, no food cell is available,
and the session is Won.  The outermost ring (for example `(0,0)` and
`(29,19)`) is not occupied by the snake. -/
def c2After : GameState :=
  { c2State with snake := ((1, 1) : Cell) :: serpSnake, food := none, score := 501,
                 win := true }

/-- An eating state with an obstacle present. -/
def c3State : GameState :=
  { snake := [(5, 5), (4, 5), (3, 5)], dir := RIGHT, pendingDir := RIGHT, food := some (6, 5),
    score := 7, obstacles := [(9, 9)], fps := 5, paused := false, gameOver := false,
    win := false, onMenu := false, deathReason := "" }

/-- The state after the eating tick from `c3State` with food draw 0 and
obstacle draw stream `i ↦ i` (fuel 3). -/
def c3After : GameState :=
  { c3State with snake := [(6, 5), (5, 5), (4, 5), (3, 5)], food := some (1, 1), score := 8,
                 obstacles := [(4, 1), (3, 1), (2, 1)], fps := 6 }

/-- An eating state at maximal speed. -/
def c5State : GameState :=
  { snake := [(10, 10), (9, 10)], dir := RIGHT, pendingDir := RIGHT, food := some (11, 10),
    score := 0, obstacles := [(2, 2)], fps := 24, paused := false, gameOver := false,
    win := false, onMenu := false, deathReason := "" }

/-- The state after the eating tick from `c5State` with food draw 0 and
obstacle draw stream `i ↦ i` (fuel 3). -/
def c5After : GameState :=
  { c5State with snake := [(11, 10), (10, 10), (9, 10)], food := some (1, 1), score := 1,
                 obstacles := [(4, 1), (3, 1), (2, 1)] }

/-- A state about to hit the left wall: head `(0,10)` moving LEFT (the
spec's wall scenario). -/
def c4State : GameState :=
  { snake := [(0, 10), (1, 10), (2, 10)], dir := LEFT, pendingDir := LEFT, food := some (5, 5),
    score := 3, obstacles := [(7, 7)], fps := 9, paused := false, gameOver := false,
    win := false, onMenu := false, deathReason := "" }

/-- A Playing state moving RIGHT, used for the reversal-rejection witness. -/
def c8State : GameState :=
  { snake := [(5, 5), (4, 5), (3, 5)], dir := RIGHT, pendingDir := RIGHT, food := some (9, 9),
    score := 0, obstacles := [], fps := 5, paused := false, gameOver := false,
    win := false, onMenu := false, deathReason := "" }

/-! ## Helper lemmas -/

theorem mem_interiorCells (c : Cell) :
    c ∈ interiorCells ↔
      APPLE_MARGIN ≤ c.1 ∧ c.1 ≤ GRID_W - 1 - APPLE_MARGIN ∧
      APPLE_MARGIN ≤ c.2 ∧ c.2 ≤ GRID_H - 1 - APPLE_MARGIN := by
  obtain ⟨x, y⟩ := c
  have hIC : interiorCells =
      (List.range 18).flatMap
        (fun j : Nat => (List.range 28).map
          (fun i : Nat => ((1 + (i : Int), 1 + (j : Int)) : Cell))) := rfl
  rw [hIC, List.mem_flatMap]
  simp only [List.mem_map, List.mem_range]
  constructor
  · rintro ⟨j, hj, i, hi, heq⟩
    rw [Prod.mk.injEq] at heq
    obtain ⟨hx, hy⟩ := heq
    simp only [GRID_W, GRID_H, APPLE_MARGIN]
    omega
  · intro hb
    simp only [GRID_W, GRID_H, APPLE_MARGIN] at hb
    obtain ⟨hx1, hx2, hy1, hy2⟩ := hb
    refine ⟨(y - 1).toNat, by omega, (x - 1).toNat, by omega, ?_⟩
    rw [Prod.mk.injEq]
    constructor <;> omega

theorem mem_candidateCells (excl : List Cell) (c : Cell) :
    c ∈ candidateCells excl ↔ c ∈ interiorCells ∧ c ∉ excl := by
  unfold candidateCells
  rw [List.mem_filter]
  simp

theorem randomEmptyCell_eq_none_iff (excl : List Cell) (r : Nat) :
    randomEmptyCell excl r = none ↔ candidateCells excl = [] := by
  unfold randomEmptyCell
  rw [List.getElem?_eq_none_iff]
  constructor
  · intro h
    rcases Nat.eq_zero_or_pos (candidateCells excl).length with h0 | hpos
    · exact List.length_eq_zero.mp h0
    · exact absurd h (Nat.not_le.mpr (Nat.mod_lt _ hpos))
  · intro h
    rw [h]
    simp

theorem randomEmptyCell_isSome (excl : List Cell) (r : Nat)
    (h : candidateCells excl ≠ []) : ∃ c, randomEmptyCell excl r = some c := by
  unfold randomEmptyCell
  have hpos : 0 < (candidateCells excl).length := List.length_pos.mpr h
  exact ⟨_, List.getElem?_eq_some_iff.mpr ⟨Nat.mod_lt _ hpos, rfl⟩⟩

theorem randomEmptyCell_mem {excl : List Cell} {r : Nat} {c : Cell}
    (h : randomEmptyCell excl r = some c) : c ∈ interiorCells ∧ c ∉ excl := by
  unfold randomEmptyCell at h
  have hm : c ∈ candidateCells excl := by
    obtain ⟨hl, rfl⟩ := List.getElem?_eq_some_iff.mp h
    exact List.getElem_mem hl
  exact (mem_candidateCells excl c).mp hm

theorem mem_setInsert (a c : Cell) (s : List Cell) :
    a ∈ setInsert c s ↔ a = c ∨ a ∈ s := by
  unfold setInsert
  split_ifs with h
  · constructor
    · exact Or.inr
    · rintro (rfl | ha) <;> [exact h; exact ha]
  · simp [List.mem_cons]

theorem setInsert_nodup (c : Cell) (s : List Cell) (h : s.Nodup) :
    (setInsert c s).Nodup := by
  unfold setInsert
  split_ifs with hc
  · exact h
  · exact List.nodup_cons.mpr ⟨hc, h⟩

theorem setInsert_length_le (c : Cell) (s : List Cell) :
    (setInsert c s).length ≤ s.length + 1 := by
  unfold setInsert
  split_ifs <;> simp

theorem spawnLoop_spec (all : List Cell) (k : Nat) (ro : Nat → Nat) :
    ∀ (fuel i : Nat) (chosen s : List Cell), chosen.Nodup → (∀ c ∈ chosen, c ∈ all) →
      chosen.length ≤ k → spawnLoop all k ro fuel i chosen = some s →
      s.Nodup ∧ s.length = k ∧ ∀ c ∈ s, c ∈ all := by
  intro fuel
  induction fuel with
  | zero =>
    intro i chosen s hnd hsub hle h
    unfold spawnLoop at h
    split_ifs at h with hk
    obtain rfl : chosen = s := Option.some.inj h
    exact ⟨hnd, Nat.le_antisymm hle hk, hsub⟩
  | succ fuel ih =>
    intro i chosen s hnd hsub hle h
    unfold spawnLoop at h
    split_ifs at h with hk
    · obtain rfl : chosen = s := Option.some.inj h
      exact ⟨hnd, Nat.le_antisymm hle hk, hsub⟩
    · cases hg : all[(ro i) % all.length]? with
      | none => rw [hg] at h; cases h
      | some c =>
        rw [hg] at h
        refine ih (i + 1) (setInsert c chosen) s (setInsert_nodup c chosen hnd) ?_ ?_ h
        · intro a ha
          rcases (mem_setInsert a c chosen).mp ha with rfl | ha
          · obtain ⟨hl, rfl⟩ := List.getElem?_eq_some_iff.mp hg
            exact List.getElem_mem hl
          · exact hsub a ha
        · have := setInsert_length_le c chosen
          omega

theorem spawnObstacles_spec {n : Nat} {excl : List Cell} {ro : Nat → Nat} {fuel : Nat}
    {s : List Cell} (h : spawnObstacles n excl ro fuel = some s) :
    s.Nodup ∧ s.length = min n (candidateCells excl).length ∧
      ∀ c ∈ s, c ∈ candidateCells excl := by
  exact spawnLoop_spec (candidateCells excl) (min n (candidateCells excl).length) ro fuel 0 [] s
    List.nodup_nil (by simp) (by simp) h

theorem keydown_cases (k : Key) (rf : Nat) (s : GameState) :
    keydown k rf s = startGame rf s ∨ keydown k rf s = initState rf ∨ keydown k rf s = s ∨
    keydown k rf s = { s with paused := !s.paused } ∨
    keydown k rf s = { s with fps := max MIN_FPS (s.fps - 1) } ∨
    keydown k rf s = { s with fps := min MAX_FPS (s.fps + 1) } ∨
    ∃ d, keydown k rf s = { s with pendingDir := d } := by
  unfold keydown
  by_cases hm : s.onMenu = true
  · rw [if_pos hm]
    by_cases hk : k = Key.space ∨ k = Key.enter
    · rw [if_pos hk]; exact Or.inl rfl
    · rw [if_neg hk]; exact Or.inr (Or.inr (Or.inl rfl))
  rw [if_neg hm]
  by_cases he : k = Key.escape
  · rw [if_pos he]; exact Or.inr (Or.inl rfl)
  rw [if_neg he]
  by_cases hgw : s.gameOver = true ∨ s.win = true
  · rw [if_pos hgw]
    by_cases hr : k = Key.keyR
    · rw [if_pos hr]; exact Or.inl rfl
    · rw [if_neg hr]; exact Or.inr (Or.inr (Or.inl rfl))
  rw [if_neg hgw]
  by_cases hsp : k = Key.space
  · rw [if_pos hsp]; exact Or.inr (Or.inr (Or.inr (Or.inl rfl)))
  rw [if_neg hsp]
  by_cases hmu : k = Key.keyM
  · rw [if_pos hmu]; exact Or.inr (Or.inr (Or.inl rfl))
  rw [if_neg hmu]
  by_cases hmi : k = Key.minus
  · rw [if_pos hmi]; exact Or.inr (Or.inr (Or.inr (Or.inr (Or.inl rfl))))
  rw [if_neg hmi]
  by_cases hpl : k = Key.plus
  · rw [if_pos hpl]; exact Or.inr (Or.inr (Or.inr (Or.inr (Or.inr (Or.inl rfl)))))
  rw [if_neg hpl]
  by_cases hu : k = Key.arrowUp
  · rw [if_pos hu]
    by_cases hd : s.dir = DOWN
    · rw [if_pos hd]; exact Or.inr (Or.inr (Or.inl rfl))
    · rw [if_neg hd]
      exact Or.inr (Or.inr (Or.inr (Or.inr (Or.inr (Or.inr ⟨UP, rfl⟩)))))
  rw [if_neg hu]
  by_cases hdn : k = Key.arrowDown
  · rw [if_pos hdn]
    by_cases hd : s.dir = UP
    · rw [if_pos hd]; exact Or.inr (Or.inr (Or.inl rfl))
    · rw [if_neg hd]
      exact Or.inr (Or.inr (Or.inr (Or.inr (Or.inr (Or.inr ⟨DOWN, rfl⟩)))))
  rw [if_neg hdn]
  by_cases hl : k = Key.arrowLeft
  · rw [if_pos hl]
    by_cases hd : s.dir = RIGHT
    · rw [if_pos hd]; exact Or.inr (Or.inr (Or.inl rfl))
    · rw [if_neg hd]
      exact Or.inr (Or.inr (Or.inr (Or.inr (Or.inr (Or.inr ⟨LEFT, rfl⟩)))))
  rw [if_neg hl]
  by_cases hri : k = Key.arrowRight
  · rw [if_pos hri]
    by_cases hd : s.dir = LEFT
    · rw [if_pos hd]; exact Or.inr (Or.inr (Or.inl rfl))
    · rw [if_neg hd]
      exact Or.inr (Or.inr (Or.inr (Or.inr (Or.inr (Or.inr ⟨RIGHT, rfl⟩)))))
  rw [if_neg hri]
  exact Or.inr (Or.inr (Or.inl rfl))

theorem tick_result (s : GameState) (rf : Nat) (ro : Nat → Nat) (fuel : Nat) (s' : GameState)
    (h : tick s rf ro fuel = some s') :
    (s'.snake = s.snake ∨
      (s'.snake = (nextHead s :: s.snake).dropLast ∧ nextHead s ∉ s.snake.dropLast) ∨
      (s'.snake = nextHead s :: s.snake ∧ nextHead s ∉ s.snake)) ∧
    (s'.obstacles = s.obstacles ∨
      ∃ f, spawnObstacles 3 (nextHead s :: s.snake ++ [f]) ro fuel = some s'.obstacles) ∧
    (s'.fps = s.fps ∨ s'.fps = min MAX_FPS (s.fps + 1)) ∧
    (s'.win = s.win ∨ s'.win = true) := by
  unfold tick at h
  by_cases h1 : inBounds (nextHead s)
  case neg =>
    rw [if_pos h1] at h
    obtain rfl : _ = s' := Option.some.inj h
    exact ⟨Or.inl rfl, Or.inl rfl, Or.inl rfl, Or.inl rfl⟩
  rw [if_neg (not_not_intro h1)] at h
  by_cases h2 : nextHead s ∈ s.obstacles
  case pos =>
    rw [if_pos h2] at h
    obtain rfl : _ = s' := Option.some.inj h
    exact ⟨Or.inl rfl, Or.inl rfl, Or.inl rfl, Or.inl rfl⟩
  rw [if_neg h2] at h
  by_cases h4 : s.food = some (nextHead s)
  · rw [if_pos h4, if_pos h4] at h
    by_cases h3 : nextHead s ∈ s.snake
    case pos =>
      rw [if_pos h3] at h
      obtain rfl : _ = s' := Option.some.inj h
      exact ⟨Or.inl rfl, Or.inl rfl, Or.inl rfl, Or.inl rfl⟩
    rw [if_neg h3] at h
    split at h
    · obtain rfl : _ = s' := Option.some.inj h
      exact ⟨Or.inr (Or.inr ⟨rfl, h3⟩), Or.inl rfl, Or.inl rfl, Or.inr rfl⟩
    · rename_i f hre
      split at h
      · cases h
      · rename_i obs hsp
        obtain rfl : _ = s' := Option.some.inj h
        exact ⟨Or.inr (Or.inr ⟨rfl, h3⟩), Or.inr ⟨f, hsp⟩, Or.inr rfl, Or.inl rfl⟩
  · rw [if_neg h4, if_neg h4] at h
    by_cases h3 : nextHead s ∈ s.snake.dropLast
    case pos =>
      rw [if_pos h3] at h
      obtain rfl : _ = s' := Option.some.inj h
      exact ⟨Or.inl rfl, Or.inl rfl, Or.inl rfl, Or.inl rfl⟩
    rw [if_neg h3] at h
    obtain rfl : _ = s' := Option.some.inj h
    exact ⟨Or.inr (Or.inl ⟨rfl, h3⟩), Or.inl rfl, Or.inl rfl, Or.inl rfl⟩

/-- On an eating move that passed the wall, obstacle and self checks, `tick`
reduces to the food/obstacle respawn pipeline. -/
theorem tick_eat_eq (s : GameState) (rf : Nat) (ro : Nat → Nat) (fuel : Nat)
    (hin : inBounds (nextHead s)) (hobs : nextHead s ∉ s.obstacles)
    (hself : nextHead s ∉ s.snake) (heat : s.food = some (nextHead s)) :
    tick s rf ro fuel =
      match randomEmptyCell (nextHead s :: s.snake ++ s.obstacles) rf with
      | none =>
        some { s with dir := s.pendingDir, snake := nextHead s :: s.snake, food := none,
                      score := s.score + 1, win := true }
      | some f =>
        match spawnObstacles 3 (nextHead s :: s.snake ++ [f]) ro fuel with
        | none => none
        | some obs =>
          some { s with dir := s.pendingDir, snake := nextHead s :: s.snake, food := some f,
                        score := s.score + 1, fps := min MAX_FPS (s.fps + 1),
                        obstacles := obs } := by
  unfold tick
  rw [if_neg (not_not_intro hin), if_neg hobs,
    show (if s.food = some (nextHead s) then s.snake else s.snake.dropLast) = s.snake
      from if_pos heat,
    if_neg hself, if_pos heat]

/-! ## Claim theorems -/

/-- C1: for a Playing tick whose new head is in bounds and not an obstacle,
the self-collision test compares the new head against the entire current
snake (tail included) when the move eats the present food, and against the
snake with its last cell excluded otherwise; a match transitions to game
over with reason "Hit self" and aborts the tick, leaving snake, food,
obstacles, score and speed unchanged. -/
theorem selfCollision_rule (s : GameState) (rf : Nat) (ro : Nat → Nat) (fuel : Nat)
    (hin : inBounds (nextHead s)) (hobs : nextHead s ∉ s.obstacles)
    (hhit : nextHead s ∈
      (if s.food = some (nextHead s) then s.snake else s.snake.dropLast)) :
    tick s rf ro fuel =
      some { s with dir := s.pendingDir, gameOver := true, deathReason := "Hit self" } := by
  unfold tick
  rw [if_neg (not_not_intro hin), if_neg hobs, if_pos hhit]

/-- Witness for C1 at the concrete state `c1State`: the eating move onto the
cell currently occupied by the tail is flagged "Hit self" (with the tail
excluded the same cell would not collide). -/
theorem selfCollision_rule_witness :
    inBounds (nextHead c1State) ∧ nextHead c1State ∉ c1State.obstacles ∧
    c1State.food = some (nextHead c1State) ∧ nextHead c1State ∈ c1State.snake ∧
    nextHead c1State ∉ c1State.snake.dropLast ∧
    tick c1State 0 (fun _ => 0) 0 =
      some { c1State with dir := c1State.pendingDir, gameOver := true,
                          deathReason := "Hit self" } :=
  ⟨by decide, by decide, by decide, by decide, by decide,
    selfCollision_rule c1State 0 (fun _ => 0) 0 (by decide) (by decide) (by decide)⟩

/-- C4: whenever the committed move takes the head out of the grid bounds,
the tick transitions to game over with reason "Hit wall" and leaves snake,
food, obstacles, score and speed unchanged (only the committed direction and
the game-over flag/reason are written). -/
theorem wallCollision_aborts (s : GameState) (rf : Nat) (ro : Nat → Nat) (fuel : Nat)
    (hout : ¬ inBounds (nextHead s)) :
    tick s rf ro fuel =
      some { s with dir := s.pendingDir, gameOver := true, deathReason := "Hit wall" } := by
  unfold tick
  rw [if_pos hout]

/-- Witness for C4 at the spec's wall scenario: head `(0,10)` moving LEFT
dies with "Hit wall" and all listed fields keep their values. -/
theorem wallCollision_aborts_witness :
    ¬ inBounds (nextHead c4State) ∧
    tick c4State 0 (fun _ => 0) 0 =
      some { c4State with dir := c4State.pendingDir, gameOver := true,
                          deathReason := "Hit wall" } :=
  ⟨by decide, wallCollision_aborts c4State 0 (fun _ => 0) 0 (by decide)⟩

/-- C6: in every state reachable from a load state by any sequence of ticks
and key events, the cells of the snake are pairwise distinct. -/
theorem snake_cells_distinct (s : GameState) (hs : Reachable s) : s.snake.Nodup := by
  induction hs with
  | init rf =>
    exact (by decide : ([((15 : Int), (10 : Int)), (14, 10), (13, 10)] : List Cell).Nodup)
  | step t t' ht hstep ih =>
    cases hstep with
    | keyStep k rf =>
      rcases keydown_cases k rf t with h | h | h | h | h | h | ⟨d, h⟩ <;> rw [h] <;>
        first
          | exact ih
          | exact (by decide :
              ([((15 : Int), (10 : Int)), (14, 10), (13, 10)] : List Cell).Nodup)
    | tickStep rf ro fuel t2 hm hp hg hw h =>
      rcases (tick_result t rf ro fuel t' h).1 with h1 | ⟨h1, h2⟩ | ⟨h1, h2⟩
      · rw [h1]; exact ih
      · rw [h1]
        cases hsn : t.snake with
        | nil => simp
        | cons a l =>
          rw [List.dropLast_cons₂]
          rw [hsn] at h2 ih
          exact List.nodup_cons.mpr ⟨h2, List.Nodup.sublist (List.dropLast_sublist _) ih⟩
      · rw [h1]
        exact List.nodup_cons.mpr ⟨h2, ih⟩

/-- Witness for C6: the load state with food draw 0 is reachable and its
snake has pairwise distinct cells. -/
theorem snake_cells_distinct_witness :
    Reachable (initState 0) ∧ (initState 0).snake.Nodup :=
  ⟨Reachable.init 0, snake_cells_distinct (initState 0) (Reachable.init 0)⟩

/-- C7: in every reachable state the speed lies in `[MIN_FPS, MAX_FPS]`,
whatever the number of eat events (each adding 1, clamped at `MAX_FPS`) and
manual speed adjustments (each clamped to the interval). -/
theorem speed_within_bounds (s : GameState) (hs : Reachable s) :
    MIN_FPS ≤ s.fps ∧ s.fps ≤ MAX_FPS := by
  induction hs with
  | init rf =>
    exact ⟨(by decide : MIN_FPS ≤ START_FPS), (by decide : START_FPS ≤ MAX_FPS)⟩
  | step t t' ht hstep ih =>
    obtain ⟨ih1, ih2⟩ := ih
    cases hstep with
    | keyStep k rf =>
      rcases keydown_cases k rf t with h | h | h | h | h | h | ⟨d, h⟩ <;> rw [h]
      · exact ⟨(by decide : MIN_FPS ≤ START_FPS), (by decide : START_FPS ≤ MAX_FPS)⟩
      · exact ⟨(by decide : MIN_FPS ≤ START_FPS), (by decide : START_FPS ≤ MAX_FPS)⟩
      · exact ⟨ih1, ih2⟩
      · exact ⟨ih1, ih2⟩
      · show MIN_FPS ≤ max MIN_FPS (t.fps - 1) ∧ max MIN_FPS (t.fps - 1) ≤ MAX_FPS
        simp only [MIN_FPS, MAX_FPS] at ih1 ih2 ⊢
        omega
      · show MIN_FPS ≤ min MAX_FPS (t.fps + 1) ∧ min MAX_FPS (t.fps + 1) ≤ MAX_FPS
        simp only [MIN_FPS, MAX_FPS] at ih1 ih2 ⊢
        omega
      · exact ⟨ih1, ih2⟩
    | tickStep rf ro fuel t2 hm hp hg hw h =>
      rcases (tick_result t rf ro fuel t' h).2.2.1 with h1 | h1 <;> rw [h1]
      · exact ⟨ih1, ih2⟩
      · simp only [MIN_FPS, MAX_FPS] at ih1 ih2 ⊢
        omega

/-- Witness for C7: the load state with food draw 1 is reachable and its
speed lies within the bounds. -/
theorem speed_within_bounds_witness :
    Reachable (initState 1) ∧ MIN_FPS ≤ (initState 1).fps ∧ (initState 1).fps ≤ MAX_FPS :=
  ⟨Reachable.init 1,
    (speed_within_bounds (initState 1) (Reachable.init 1)).1,
    (speed_within_bounds (initState 1) (Reachable.init 1)).2⟩

/-- C5: the obstacle set of every reachable state has at most 3 members; and
on every eating tick that does not end in Win (so a new food cell `f` was
placed), the previous obstacle set is discarded and replaced by exactly
`min 3 k` distinct cells, where `k` counts the interior-margin cells not
occupied by the post-move snake or the new food, each chosen cell being an
interior-margin cell outside the post-move snake and distinct from `f`. -/
theorem obstacles_cap_and_respawn :
    (∀ s, Reachable s → s.obstacles.length ≤ 3) ∧
    (∀ s rf (ro : Nat → Nat) fuel s' f, inBounds (nextHead s) → nextHead s ∉ s.obstacles →
      nextHead s ∉ s.snake → s.food = some (nextHead s) →
      tick s rf ro fuel = some s' → s'.food = some f →
      s'.obstacles.Nodup ∧
      s'.obstacles.length = min 3 (candidateCells (nextHead s :: s.snake ++ [f])).length ∧
      ∀ c ∈ s'.obstacles, c ∈ interiorCells ∧ c ∉ nextHead s :: s.snake ∧ c ≠ f) := by
  constructor
  · intro s hs
    induction hs with
    | init rf => exact Nat.zero_le 3
    | step t t' ht hstep ih =>
      cases hstep with
      | keyStep k rf =>
        rcases keydown_cases k rf t with h | h | h | h | h | h | ⟨d, h⟩ <;> rw [h] <;>
          first
            | exact ih
            | exact Nat.zero_le 3
      | tickStep rf ro fuel t2 hm hp hg hw h =>
        rcases (tick_result t rf ro fuel t' h).2.1 with h1 | ⟨f, hsp⟩
        · rw [h1]; exact ih
        · have hspec := spawnObstacles_spec hsp
          omega
  · intro s rf ro fuel s' f hin hobs hself heat h hf
    rw [tick_eat_eq s rf ro fuel hin hobs hself heat] at h
    split at h
    · obtain rfl : _ = s' := Option.some.inj h
      cases hf
    · rename_i g hre
      split at h
      · cases h
      · rename_i obs hsp
        obtain rfl : _ = s' := Option.some.inj h
        obtain rfl : g = f := Option.some.inj hf
        obtain ⟨hnd, hlen, hmem⟩ := spawnObstacles_spec hsp
        refine ⟨hnd, hlen, ?_⟩
        intro c hc
        have hm := (mem_candidateCells _ c).mp (hmem c hc)
        obtain ⟨hint, hnot⟩ := hm
        refine ⟨hint, fun hmem2 => hnot ?_, fun he => hnot ?_⟩
        · rcases List.mem_cons.mp hmem2 with he | hx
          · exact he ▸ List.mem_cons_self _ _
          · exact List.mem_cons_of_mem _ (List.mem_append_left _ hx)
        · rw [he]
          exact List.mem_cons_of_mem _ (List.mem_append_right _ (List.mem_singleton_self g))

set_option maxRecDepth 100000 in
/-- Witness for C5: the load state obeys the cap, and the concrete eating
tick from `c5State` (food draw 0, obstacle stream `i ↦ i`, fuel 3) respawns
exactly `min 3 k` fresh obstacle cells with the stated properties. -/
theorem obstacles_cap_and_respawn_witness :
    (initState 2).obstacles.length ≤ 3 ∧
    (c5After.obstacles.Nodup ∧
      c5After.obstacles.length =
        min 3 (candidateCells (nextHead c5State :: c5State.snake ++ [((1, 1) : Cell)])).length ∧
      ∀ c ∈ c5After.obstacles,
        c ∈ interiorCells ∧ c ∉ nextHead c5State :: c5State.snake ∧ c ≠ ((1, 1) : Cell)) :=
  ⟨obstacles_cap_and_respawn.1 (initState 2) (Reachable.init 2),
    obstacles_cap_and_respawn.2 c5State 0 (fun i => i) 3 c5After ((1, 1) : Cell)
      (by decide) (by decide) (by decide) (by decide) (by decide) (by decide)⟩

/-- C3: on an eating tick that does not end in Win, the new food is the
`rf mod k`-th entry of the candidate list (the interior-margin cells not
occupied by the post-move snake or the pre-existing obstacles, in
enumeration order), so a uniform draw `rf` selects uniformly among the
candidates; consequently the placed food is an interior-margin cell (never
on the outermost ring) and is neither on the post-move snake nor on the
obstacles present at placement time. -/
theorem food_placement (s : GameState) (rf : Nat) (ro : Nat → Nat) (fuel : Nat)
    (s' : GameState) (hin : inBounds (nextHead s)) (hobs : nextHead s ∉ s.obstacles)
    (hself : nextHead s ∉ s.snake) (heat : s.food = some (nextHead s))
    (h : tick s rf ro fuel = some s') (hwin : s'.win = false) :
    s'.food = randomEmptyCell (nextHead s :: s.snake ++ s.obstacles) rf ∧
    ∀ f, s'.food = some f →
      f ∈ interiorCells ∧
      APPLE_MARGIN ≤ f.1 ∧ f.1 ≤ GRID_W - 1 - APPLE_MARGIN ∧
      APPLE_MARGIN ≤ f.2 ∧ f.2 ≤ GRID_H - 1 - APPLE_MARGIN ∧
      f ∉ nextHead s :: s.snake ∧ f ∉ s.obstacles := by
  rw [tick_eat_eq s rf ro fuel hin hobs hself heat] at h
  split at h
  · rename_i hre
    obtain rfl : _ = s' := Option.some.inj h
    cases hwin
  · rename_i g hre
    split at h
    · cases h
    · rename_i obs hsp
      obtain rfl : _ = s' := Option.some.inj h
      constructor
      · exact hre.symm
      · intro f hf
        obtain rfl : g = f := Option.some.inj hf
        obtain ⟨hint, hnot⟩ := randomEmptyCell_mem hre
        have hb := (mem_interiorCells _).mp hint
        refine ⟨hint, hb.1, hb.2.1, hb.2.2.1, hb.2.2.2, fun hmem2 => hnot ?_,
          fun hmem2 => hnot ?_⟩
        · rcases List.mem_cons.mp hmem2 with he | hx
          · exact he ▸ List.mem_cons_self _ _
          · exact List.mem_cons_of_mem _ (List.mem_append_left _ hx)
        · exact List.mem_cons_of_mem _ (List.mem_append_right _ hmem2)

set_option maxRecDepth 100000 in
/-- Witness for C3: the concrete eating tick from `c3State` (food draw 0)
places the food at the first candidate cell `(1,1)`, which satisfies every
stated property. -/
theorem food_placement_witness :
    c3After.food = randomEmptyCell (nextHead c3State :: c3State.snake ++ c3State.obstacles) 0 ∧
    ∀ f, c3After.food = some f →
      f ∈ interiorCells ∧
      APPLE_MARGIN ≤ f.1 ∧ f.1 ≤ GRID_W - 1 - APPLE_MARGIN ∧
      APPLE_MARGIN ≤ f.2 ∧ f.2 ≤ GRID_H - 1 - APPLE_MARGIN ∧
      f ∉ nextHead c3State :: c3State.snake ∧ f ∉ c3State.obstacles :=
  food_placement c3State 0 (fun i => i) 3 c3After
    (by decide) (by decide) (by decide) (by decide) (by decide) (by decide)

/-- C8: a direction key processed while not on the menu and not in a
terminal state never sets the pending direction to the exact opposite of
the committed direction: if the requested vector is the negation of the
committed direction the input is rejected and the whole state (in
particular the pending direction) keeps its previous value; otherwise the
pending direction becomes the requested vector. -/
theorem pendingDir_no_reversal (s : GameState) (k : Key) (rf : Nat)
    (hm : s.onMenu = false) (hg : s.gameOver = false) (hw : s.win = false)
    (hk : k = Key.arrowUp ∨ k = Key.arrowDown ∨ k = Key.arrowLeft ∨ k = Key.arrowRight) :
    (keydown k rf s).pendingDir =
      if s.dir = opp (dirVec k) then s.pendingDir else dirVec k := by
  have hm' : ¬ s.onMenu = true := by simp [hm]
  have hgw : ¬ (s.gameOver = true ∨ s.win = true) := by simp [hg, hw]
  rcases hk with rfl | rfl | rfl | rfl
  · unfold keydown
    rw [if_neg hm', if_neg (by decide), if_neg hgw, if_neg (by decide), if_neg (by decide),
      if_neg (by decide), if_neg (by decide), if_pos rfl]
    rw [show opp (dirVec Key.arrowUp) = DOWN from by decide, apply_ite GameState.pendingDir]
    split_ifs <;> rfl
  · unfold keydown
    rw [if_neg hm', if_neg (by decide), if_neg hgw, if_neg (by decide), if_neg (by decide),
      if_neg (by decide), if_neg (by decide), if_neg (by decide), if_pos rfl]
    rw [show opp (dirVec Key.arrowDown) = UP from by decide, apply_ite GameState.pendingDir]
    split_ifs <;> rfl
  · unfold keydown
    rw [if_neg hm', if_neg (by decide), if_neg hgw, if_neg (by decide), if_neg (by decide),
      if_neg (by decide), if_neg (by decide), if_neg (by decide), if_neg (by decide),
      if_pos rfl]
    rw [show opp (dirVec Key.arrowLeft) = RIGHT from by decide, apply_ite GameState.pendingDir]
    split_ifs <;> rfl
  · unfold keydown
    rw [if_neg hm', if_neg (by decide), if_neg hgw, if_neg (by decide), if_neg (by decide),
      if_neg (by decide), if_neg (by decide), if_neg (by decide), if_neg (by decide),
      if_neg (by decide), if_pos rfl]
    rw [show opp (dirVec Key.arrowRight) = LEFT from by decide, apply_ite GameState.pendingDir]
    split_ifs <;> rfl

/-- Witness for C8: in `c8State` (committed direction RIGHT) a LEFT input is
the exact reversal, so the pending direction keeps its previous value. -/
theorem pendingDir_no_reversal_witness :
    (keydown Key.arrowLeft 0 c8State).pendingDir =
      (if c8State.dir = opp (dirVec Key.arrowLeft) then c8State.pendingDir
       else dirVec Key.arrowLeft) ∧
    (keydown Key.arrowLeft 0 c8State).pendingDir = c8State.pendingDir :=
  ⟨pendingDir_no_reversal c8State Key.arrowLeft 0 rfl rfl rfl (Or.inr (Or.inr (Or.inl rfl))),
    by decide⟩

/-- C9: every start/restart invocation yields a state whose snake is the
three contiguous horizontal cells headed at the grid centre facing RIGHT,
with pending direction RIGHT, score 0, empty obstacles, speed `START_FPS`,
and a food cell that exists, avoids every snake cell and obeys the
interior-margin rule; since this holds for every previous state, two
consecutive resets have identical structural shape (snake length 3, score 0,
speed `START_FPS`) while the food may differ with the draw. -/
theorem reset_produces_start_state (rf : Nat) (s : GameState) :
    (startGame rf s).snake =
      [(GRID_W / 2, GRID_H / 2), (GRID_W / 2 - 1, GRID_H / 2), (GRID_W / 2 - 2, GRID_H / 2)] ∧
    (startGame rf s).snake.length = 3 ∧
    (startGame rf s).dir = RIGHT ∧
    (startGame rf s).pendingDir = RIGHT ∧
    (startGame rf s).score = 0 ∧
    (startGame rf s).obstacles = [] ∧
    (startGame rf s).fps = START_FPS ∧
    (∃ f, (startGame rf s).food = some f) ∧
    ∀ f, (startGame rf s).food = some f →
      f ∉ (startGame rf s).snake ∧ f ∈ interiorCells ∧
      APPLE_MARGIN ≤ f.1 ∧ f.1 ≤ GRID_W - 1 - APPLE_MARGIN ∧
      APPLE_MARGIN ≤ f.2 ∧ f.2 ≤ GRID_H - 1 - APPLE_MARGIN := by
  refine ⟨rfl, rfl, rfl, rfl, rfl, rfl, rfl, ?_, ?_⟩
  · have h11 : ((1, 1) : Cell) ∈ candidateCells
        [(GRID_W / 2, GRID_H / 2), (GRID_W / 2 - 1, GRID_H / 2), (GRID_W / 2 - 2, GRID_H / 2)] := by
      rw [mem_candidateCells]
      exact ⟨(mem_interiorCells _).mpr (by decide), by decide⟩
    exact randomEmptyCell_isSome _ rf (List.ne_nil_of_mem h11)
  · intro f hf
    have hf' : randomEmptyCell
        [(GRID_W / 2, GRID_H / 2), (GRID_W / 2 - 1, GRID_H / 2), (GRID_W / 2 - 2, GRID_H / 2)] rf =
        some f := hf
    obtain ⟨hint, hnot⟩ := randomEmptyCell_mem hf'
    have hb := (mem_interiorCells _).mp hint
    exact ⟨hnot, hint, hb.1, hb.2.1, hb.2.2.1, hb.2.2.2⟩

set_option maxRecDepth 100000 in
/-- Witness for C9: a concrete restart (draw 0) places the food at `(1,1)`,
off the snake and inside the interior margin. -/
theorem reset_produces_start_state_witness :
    (startGame 0 (initState 0)).food = some ((1, 1) : Cell) ∧
    ((1, 1) : Cell) ∉ (startGame 0 (initState 0)).snake ∧
    ((1, 1) : Cell) ∈ interiorCells :=
  ⟨by decide,
    ((reset_produces_start_state 0 (initState 0)).2.2.2.2.2.2.2.2 ((1, 1) : Cell)
      (by decide)).1,
    ((reset_produces_start_state 0 (initState 0)).2.2.2.2.2.2.2.2 ((1, 1) : Cell)
      (by decide)).2.1⟩

/-- From a Win state of a running session (not on the menu) every session
step is inert or an explicit restart: ticks are gated off by the loop
condition, and every key except R (restart) and Escape (reload) leaves the
state unchanged. -/
theorem winState_steps (t : GameState) (htw : t.win = true) (htm : t.onMenu = false) :
    ∀ t', Step t t' →
      t' = t ∨ (∃ rf, t' = startGame rf t) ∨ (∃ rf, t' = initState rf) := by
  intro t' hst
  cases hst with
  | tickStep rf ro fuel t2 hm hp hg hw h =>
    rw [htw] at hw
    cases hw
  | keyStep k rf =>
    unfold keydown
    rw [if_neg (show ¬ t.onMenu = true by rw [htm]; exact Bool.false_ne_true)]
    by_cases he : k = Key.escape
    · rw [if_pos he]
      exact Or.inr (Or.inr ⟨rf, rfl⟩)
    rw [if_neg he, if_pos (Or.inr htw)]
    by_cases hr : k = Key.keyR
    · rw [if_pos hr]
      exact Or.inr (Or.inl ⟨rf, rfl⟩)
    · rw [if_neg hr]
      exact Or.inl rfl

/-- C2 (amended): starting from a Playing state, a tick transitions to Win
exactly when the move is an in-bounds, obstacle-free, self-collision-free
eating move for which no candidate food cell remains, i.e. every
interior-margin cell is occupied by the post-move snake or the pre-existing
obstacles; on that transition the snake keeps its new head and is not
trimmed, the food becomes absent and the score is incremented; and a Win
state is terminal for the session: every further step either leaves the
state exactly unchanged or is an explicit restart or reload. -/
theorem win_characterization (s : GameState) (rf : Nat) (ro : Nat → Nat) (fuel : Nat)
    (s' : GameState) (hw : s.win = false) (h : tick s rf ro fuel = some s') :
    ((s'.win = true ↔
      (inBounds (nextHead s) ∧ nextHead s ∉ s.obstacles ∧ s.food = some (nextHead s) ∧
        nextHead s ∉ s.snake ∧ candidateCells (nextHead s :: s.snake ++ s.obstacles) = [])) ∧
    (s'.win = true → s'.snake = nextHead s :: s.snake ∧ s'.food = none ∧
      s'.score = s.score + 1)) ∧
    (∀ t : GameState, t.win = true → t.onMenu = false → ∀ t', Step t t' →
      t' = t ∨ (∃ rf2, t' = startGame rf2 t) ∨ (∃ rf2, t' = initState rf2)) := by
  refine ⟨?_, fun t htw htm => winState_steps t htw htm⟩
  unfold tick at h
  by_cases h1 : inBounds (nextHead s)
  case neg =>
    rw [if_pos h1] at h
    obtain rfl : _ = s' := Option.some.inj h
    have hnw : ¬ (s.win = true) := by rw [hw]; exact Bool.false_ne_true
    exact ⟨iff_of_false hnw (fun hc => h1 hc.1), fun hww => absurd hww hnw⟩
  rw [if_neg (not_not_intro h1)] at h
  by_cases h2 : nextHead s ∈ s.obstacles
  case pos =>
    rw [if_pos h2] at h
    obtain rfl : _ = s' := Option.some.inj h
    have hnw : ¬ (s.win = true) := by rw [hw]; exact Bool.false_ne_true
    exact ⟨iff_of_false hnw (fun hc => hc.2.1 h2), fun hww => absurd hww hnw⟩
  rw [if_neg h2] at h
  by_cases h4 : s.food = some (nextHead s)
  · rw [show (if s.food = some (nextHead s) then s.snake else s.snake.dropLast) = s.snake
      from if_pos h4, if_pos h4] at h
    by_cases h3 : nextHead s ∈ s.snake
    case pos =>
      rw [if_pos h3] at h
      obtain rfl : _ = s' := Option.some.inj h
      have hnw : ¬ (s.win = true) := by rw [hw]; exact Bool.false_ne_true
      exact ⟨iff_of_false hnw (fun hc => hc.2.2.2.1 h3), fun hww => absurd hww hnw⟩
    rw [if_neg h3] at h
    split at h
    · rename_i hre
      obtain rfl : _ = s' := Option.some.inj h
      exact ⟨iff_of_true rfl ⟨h1, h2, h4, h3, (randomEmptyCell_eq_none_iff _ rf).mp hre⟩,
        fun _ => ⟨rfl, rfl, rfl⟩⟩
    · rename_i g hre
      split at h
      · cases h
      · rename_i obs hsp
        obtain rfl : _ = s' := Option.some.inj h
        have hnw : ¬ (s.win = true) := by rw [hw]; exact Bool.false_ne_true
        refine ⟨iff_of_false hnw ?_, fun hww => absurd hww hnw⟩
        rintro ⟨-, -, -, -, hnil⟩
        rw [(randomEmptyCell_eq_none_iff _ rf).mpr hnil] at hre
        cases hre
  · rw [show (if s.food = some (nextHead s) then s.snake else s.snake.dropLast) =
        s.snake.dropLast from if_neg h4, if_neg h4] at h
    by_cases h3 : nextHead s ∈ s.snake.dropLast
    case pos =>
      rw [if_pos h3] at h
      obtain rfl : _ = s' := Option.some.inj h
      have hnw : ¬ (s.win = true) := by rw [hw]; exact Bool.false_ne_true
      exact ⟨iff_of_false hnw (fun hc => h4 hc.2.2.1), fun hww => absurd hww hnw⟩
    rw [if_neg h3] at h
    obtain rfl : _ = s' := Option.some.inj h
    have hnw : ¬ (s.win = true) := by rw [hw]; exact Bool.false_ne_true
    exact ⟨iff_of_false hnw (fun hc => h4 hc.2.2.1), fun hww => absurd hww hnw⟩

/-- Witness for C2 at the ordinary non-eating state `c2SmallState`: the
characterization applies and correctly reports no Win; and at the concrete
Win state `c2After`, a Space keypress is inert or a restart/reload (here in
fact inert). -/
theorem win_characterization_witness :
    c2SmallState.win = false ∧
    tick c2SmallState 0 (fun _ => 0) 0 = some c2SmallAfter ∧
    ((c2SmallAfter.win = true ↔
      (inBounds (nextHead c2SmallState) ∧ nextHead c2SmallState ∉ c2SmallState.obstacles ∧
        c2SmallState.food = some (nextHead c2SmallState) ∧
        nextHead c2SmallState ∉ c2SmallState.snake ∧
        candidateCells
          (nextHead c2SmallState :: c2SmallState.snake ++ c2SmallState.obstacles) = [])) ∧
     (c2SmallAfter.win = true →
       c2SmallAfter.snake = nextHead c2SmallState :: c2SmallState.snake ∧
       c2SmallAfter.food = none ∧ c2SmallAfter.score = c2SmallState.score + 1)) ∧
    (keydown Key.space 3 c2After = c2After ∨
      (∃ rf2, keydown Key.space 3 c2After = startGame rf2 c2After) ∨
      (∃ rf2, keydown Key.space 3 c2After = initState rf2)) :=
  ⟨rfl, by decide,
    (win_characterization c2SmallState 0 (fun _ => 0) 0 c2SmallAfter rfl (by decide)).1,
    (win_characterization c2SmallState 0 (fun _ => 0) 0 c2SmallAfter rfl (by decide)).2
      c2After rfl rfl (keydown Key.space 3 c2After) (Step.keyStep c2After Key.space 3)⟩

/-- Every interior-margin cell lies on the serpentine path. -/
theorem interior_subset_fullSerp : ∀ c ∈ interiorCells, c ∈ fullSerp := by
  intro c hc
  rw [interiorCells, List.mem_flatMap] at hc
  obtain ⟨j, hj, hcj⟩ := hc
  rw [fullSerp, List.mem_flatMap]
  refine ⟨j, hj, ?_⟩
  rw [serpRow]
  split_ifs
  · exact hcj
  · exact List.mem_reverse.mpr hcj

set_option maxRecDepth 100000 in
/-- The post-move exclude set of the `c2State` tick is exactly the full
serpentine path. -/
theorem serp_exclude_eq :
    nextHead c2State :: c2State.snake ++ c2State.obstacles = fullSerp := by decide

/-- No candidate food cell remains after the `c2State` move: every
interior-margin cell is excluded. -/
theorem serp_candidates_nil :
    candidateCells (nextHead c2State :: c2State.snake ++ c2State.obstacles) = [] := by
  rw [serp_exclude_eq, candidateCells, List.filter_eq_nil_iff]
  intro a ha
  simp [interior_subset_fullSerp a ha]

set_option maxRecDepth 100000 in
/-- Counterexample for C2 as frozen: from the Playing state `c2State` the
tick transitions to Win (the eating move fills the last free interior-margin
cell), yet the board is not fully occupied by the snake — the outer-ring
cells `(0,0)` and `(29,19)` are unoccupied.  Win requires only that every
interior-margin cell be covered by the post-move snake or the obstacles,
not that the whole board be snake. -/
theorem win_without_board_full :
    tick c2State 0 (fun _ => 0) 0 = some c2After ∧ c2After.win = true ∧
    ((0, 0) : Cell) ∉ c2After.snake ∧ ((29, 19) : Cell) ∉ c2After.snake := by
  refine ⟨?_, rfl, by decide, by decide⟩
  rw [tick_eat_eq c2State 0 (fun _ => 0) 0 (by decide) (by decide) (by decide) (by decide)]
  rw [(randomEmptyCell_eq_none_iff _ 0).mpr serp_candidates_nil]
  rfl

/-- If the constant stream keeps redrawing the already-chosen cell, the
spawn loop never grows past one cell and runs out of any fuel. -/
theorem spawnLoop_const_stuck (all : List Cell) (c : Cell)
    (hg : all[0 % all.length]? = some c) :
    ∀ fuel i, spawnLoop all 3 (fun _ => 0) fuel i [c] = none := by
  intro fuel
  induction fuel with
  | zero =>
    intro i
    unfold spawnLoop
    rw [if_neg (by simp)]
  | succ fuel ih =>
    intro i
    unfold spawnLoop
    rw [if_neg (by simp)]
    simp only [hg]
    rw [show setInsert c [c] = [c] from by
      unfold setInsert; rw [if_pos (List.mem_singleton_self c)]]
    exact ih (i + 1)

set_option maxRecDepth 100000 in
/-- Counterexample for C10 as frozen: with the constant draw stream the
sampling-with-replacement loop of `spawnObstacles` never terminates — for
every amount of fuel it fails to collect 3 distinct cells (it keeps
redrawing `(1,1)`). -/
theorem spawnObstacles_can_run_forever :
    spawnObstaclesDiverges 3 [] (fun _ => 0) := by
  have h0 : candidateCells ([] : List Cell) = interiorCells := by
    unfold candidateCells
    apply List.filter_eq_self.mpr
    intro a ha
    simp
  have hg : interiorCells[0 % interiorCells.length]? = some ((1, 1) : Cell) := by
    rw [Nat.zero_mod]
    decide
  have hmin : min 3 interiorCells.length = 3 := by decide
  intro fuel
  unfold spawnObstacles
  rw [h0, hmin]
  cases fuel with
  | zero =>
    unfold spawnLoop
    rw [if_neg (by decide)]
  | succ fuel =>
    unfold spawnLoop
    rw [if_neg (by decide)]
    simp only [hg]
    rw [show setInsert ((1, 1) : Cell) [] = [((1, 1) : Cell)] from rfl]
    exact spawnLoop_const_stuck interiorCells ((1, 1) : Cell) hg fuel 1

/-- C10 (amended): whenever `spawnObstacles` terminates it returns exactly
`min n k` distinct cells, where `k` counts the interior-margin cells outside
the exclude set, each drawn from that candidate set; termination, however,
is not guaranteed for every stream of draws (see the counterexample), only
for streams that eventually supply enough distinct candidates. -/
theorem spawnObstacles_partial_correct (n : Nat) (excl : List Cell) (ro : Nat → Nat)
    (fuel : Nat) (s : List Cell) (h : spawnObstacles n excl ro fuel = some s) :
    s.Nodup ∧ s.length = min n (candidateCells excl).length ∧
      ∀ c ∈ s, c ∈ candidateCells excl :=
  spawnObstacles_spec h

set_option maxRecDepth 100000 in
/-- Witness for C10 (amended): with the stream `i ↦ i` and fuel 3,
`spawnObstacles` terminates with the three distinct cells
`(3,1), (2,1), (1,1)`, all candidates. -/
theorem spawnObstacles_partial_correct_witness :
    spawnObstacles 3 [] (fun i => i) 3 =
      some [((3 : Int), (1 : Int)), (2, 1), (1, 1)] ∧
    (([((3 : Int), (1 : Int)), (2, 1), (1, 1)] : List Cell).Nodup ∧
      ([((3 : Int), (1 : Int)), (2, 1), (1, 1)] : List Cell).length =
        min 3 (candidateCells []).length ∧
      ∀ c ∈ ([((3 : Int), (1 : Int)), (2, 1), (1, 1)] : List Cell),
        c ∈ candidateCells []) :=
  ⟨by decide,
    spawnObstacles_partial_correct 3 [] (fun i => i) 3
      [((3 : Int), (1 : Int)), (2, 1), (1, 1)] (by decide)⟩

end SnakeWeb
